import Mathlib

/-!
Verification of the register-mapping and device-bridging layer of the
Energy-Ladder repository (src/factory_io/factory_io_utils.py and
src/labview/labview_integration.py).

Python dictionaries are embedded as association lists in insertion order:
item assignment (`d[k] = v`) replaces the value of an existing key in place
and otherwise appends, matching CPython's ordered-dict semantics.  A genuine
Python dict never holds two entries with the same key, so theorems about
dicts built by callers carry a `Nodup` hypothesis on the key list.
Numeric values (Python ints and floats) are embedded as rationals; fallible
operations return `Option` or `Except`.
-/

/-- Association-list embedding of a Python dict, in insertion order. -/
abbrev PyDict (K V : Type) := List (K × V)

/-- `d.get(key)` / `d[key]`: first entry with the given key, if any. -/
def dictLookup {K V : Type} [DecidableEq K] : PyDict K V → K → Option V
  | [], _ => none
  | (k, v) :: rest, key => if k = key then some v else dictLookup rest key

/-- `key in d`. -/
def dictContains {K V : Type} [DecidableEq K] (d : PyDict K V) (key : K) : Bool :=
  (dictLookup d key).isSome

/-- `d[key] = v`: replace in place if the key is present, else append. -/
def dictSet {K V : Type} [DecidableEq K] : PyDict K V → K → V → PyDict K V
  | [], key, v => [(key, v)]
  | (k, w) :: rest, key, v =>
      if k = key then (key, v) :: rest else (k, w) :: dictSet rest key v

/-- `list(d.keys())`. -/
def dictKeys {K V : Type} (d : PyDict K V) : List K := d.map Prod.fst

theorem dictLookup_nil {K V : Type} [DecidableEq K] (key : K) :
    dictLookup ([] : PyDict K V) key = none := rfl

theorem dictLookup_cons {K V : Type} [DecidableEq K] (k key : K) (v : V) (rest : PyDict K V) :
    dictLookup ((k, v) :: rest) key = if k = key then some v else dictLookup rest key := rfl

theorem dictLookup_append_left {K V : Type} [DecidableEq K] {d : PyDict K V} {key : K}
    (d2 : PyDict K V) {v : V} (h : dictLookup d key = some v) :
    dictLookup (d ++ d2) key = some v := by
  induction d with
  | nil => simp [dictLookup] at h
  | cons e rest ih =>
      obtain ⟨k, w⟩ := e
      simp only [dictLookup_cons, List.cons_append] at h ⊢
      by_cases hk : k = key
      · simpa [hk] using h
      · simp only [hk, if_false] at h ⊢
        exact ih h

theorem dictLookup_append_right {K V : Type} [DecidableEq K] {d : PyDict K V} {key : K}
    (d2 : PyDict K V) (h : dictLookup d key = none) :
    dictLookup (d ++ d2) key = dictLookup d2 key := by
  induction d with
  | nil => simp
  | cons e rest ih =>
      obtain ⟨k, w⟩ := e
      simp only [dictLookup_cons, List.cons_append] at h ⊢
      by_cases hk : k = key
      · simp [hk] at h
      · simp only [hk, if_false] at h ⊢
        exact ih h

theorem dictLookup_eq_none_of_not_mem_keys {K V : Type} [DecidableEq K]
    {d : PyDict K V} {key : K} (h : key ∉ dictKeys d) :
    dictLookup d key = none := by
  induction d with
  | nil => rfl
  | cons e rest ih =>
      obtain ⟨k, w⟩ := e
      simp only [dictKeys, List.map_cons, List.mem_cons] at h
      push_neg at h
      simp only [dictLookup_cons, Ne.symm h.1, if_false]
      exact ih h.2

theorem mem_keys_of_dictLookup {K V : Type} [DecidableEq K]
    {d : PyDict K V} {key : K} {v : V} (h : dictLookup d key = some v) :
    key ∈ dictKeys d := by
  induction d with
  | nil => simp [dictLookup] at h
  | cons e rest ih =>
      obtain ⟨k, w⟩ := e
      simp only [dictLookup_cons] at h
      by_cases hk : k = key
      · simp [dictKeys, hk]
      · simp only [hk, if_false] at h
        simp [dictKeys] at ih ⊢
        exact Or.inr (ih h)

theorem dictLookup_isSome_iff_mem_keys {K V : Type} [DecidableEq K]
    (d : PyDict K V) (key : K) :
    (dictLookup d key).isSome = true ↔ key ∈ dictKeys d := by
  constructor
  · intro h
    obtain ⟨v, hv⟩ := Option.isSome_iff_exists.mp h
    exact mem_keys_of_dictLookup hv
  · intro h
    by_contra hns
    rw [Option.not_isSome_iff_eq_none] at hns
    induction d with
    | nil => simp [dictKeys] at h
    | cons e rest ih =>
        obtain ⟨k, w⟩ := e
        simp only [dictLookup_cons] at hns
        by_cases hk : k = key
        · simp [hk] at hns
        · simp only [hk, if_false] at hns
          simp only [dictKeys, List.map_cons, List.mem_cons] at h
          rcases h with h | h
          · exact hk h.symm
          · exact ih h hns

theorem dictSet_of_not_mem_keys {K V : Type} [DecidableEq K]
    {d : PyDict K V} {key : K} (v : V) (h : key ∉ dictKeys d) :
    dictSet d key v = d ++ [(key, v)] := by
  induction d with
  | nil => rfl
  | cons e rest ih =>
      obtain ⟨k, w⟩ := e
      simp only [dictKeys, List.map_cons, List.mem_cons] at h
      push_neg at h
      simp only [dictSet, Ne.symm h.1, if_false, List.cons_append, List.cons.injEq, true_and]
      exact ih h.2

theorem dictLookup_dictSet_self {K V : Type} [DecidableEq K]
    (d : PyDict K V) (key : K) (v : V) :
    dictLookup (dictSet d key v) key = some v := by
  induction d with
  | nil => simp [dictSet, dictLookup]
  | cons e rest ih =>
      obtain ⟨k, w⟩ := e
      by_cases hk : k = key
      · simp [dictSet, hk, dictLookup]
      · simp [dictSet, hk, dictLookup, ih]

theorem dictLookup_dictSet_ne {K V : Type} [DecidableEq K]
    (d : PyDict K V) {key key2 : K} (v : V) (h : key ≠ key2) :
    dictLookup (dictSet d key v) key2 = dictLookup d key2 := by
  induction d with
  | nil => simp [dictSet, dictLookup, h]
  | cons e rest ih =>
      obtain ⟨k, w⟩ := e
      by_cases hk : k = key
      · simp [dictSet, hk, dictLookup, h]
      · simp [dictSet, hk, dictLookup, ih]

/-! ## src/factory_io/factory_io_utils.py -/

/-- A register descriptor from a `register_map` entry.  Each field records
presence or absence of the corresponding dict key, mirroring Python's
`register_config.get(...)`: `conversion` defaults to `1.0` and `offset` to
`0` when absent. -/
structure RegisterConfig where
  register : Option Int
  conversion : Option ℚ
  offset : Option ℚ
  deriving DecidableEq

/-- `map_modbus_to_observation(modbus_data, register_map)`: for each
`(obs_name, register_config)` item of `register_map` in order, if the
configured register address is a key of `modbus_data`, store
`value * conversion + offset` under `obs_name`; otherwise skip the entry. -/
def map_modbus_to_observation (modbus_data : PyDict Int ℚ)
    (register_map : PyDict String RegisterConfig) : PyDict String ℚ :=
  register_map.foldl
    (fun observations entry =>
      let register_id := entry.2.register
      let conversion := entry.2.conversion.getD 1
      let offset := entry.2.offset.getD 0
      match register_id with
      | some rid =>
          match dictLookup modbus_data rid with
          | some value => dictSet observations entry.1 (value * conversion + offset)
          | none => observations
      | none => observations)
    []

/-- The observation produced by a single `register_map` entry, if any. -/
def observationEntry (modbus_data : PyDict Int ℚ) (entry : String × RegisterConfig) :
    Option (String × ℚ) :=
  match entry.2.register with
  | some rid =>
      match dictLookup modbus_data rid with
      | some value => some (entry.1, value * entry.2.conversion.getD 1 + entry.2.offset.getD 0)
      | none => none
  | none => none

theorem map_modbus_foldl_acc (modbus_data : PyDict Int ℚ)
    (register_map : PyDict String RegisterConfig) (acc : PyDict String ℚ)
    (hnd : (dictKeys register_map).Nodup)
    (hdisj : ∀ n ∈ dictKeys acc, n ∉ dictKeys register_map) :
    register_map.foldl
      (fun observations entry =>
        let register_id := entry.2.register
        let conversion := entry.2.conversion.getD 1
        let offset := entry.2.offset.getD 0
        match register_id with
        | some rid =>
            match dictLookup modbus_data rid with
            | some value => dictSet observations entry.1 (value * conversion + offset)
            | none => observations
        | none => observations)
      acc = acc ++ register_map.filterMap (observationEntry modbus_data) := by
  induction register_map generalizing acc with
  | nil => simp
  | cons entry rest ih =>
      obtain ⟨name, cfg⟩ := entry
      simp only [dictKeys, List.map_cons, List.nodup_cons] at hnd
      have hnotin : name ∉ dictKeys acc := fun hmem =>
        hdisj name hmem (by simp [dictKeys])
      have hdisj2 : ∀ n ∈ dictKeys acc, n ∉ dictKeys rest := fun n hn hmem =>
        hdisj n hn (by simp [dictKeys] at hmem ⊢; exact Or.inr hmem)
      simp only [List.foldl_cons, List.filterMap_cons]
      match hobs : observationEntry modbus_data (name, cfg) with
      | none =>
          simp only [observationEntry] at hobs
          match hreg : cfg.register with
          | none =>
              simp only [hreg]
              exact ih acc hnd.2 hdisj2
          | some rid =>
              simp only [hreg] at hobs
              match hval : dictLookup modbus_data rid with
              | some value => simp [hval] at hobs
              | none =>
                  simp only [hreg, hval]
                  exact ih acc hnd.2 hdisj2
      | some pair =>
          simp only [observationEntry] at hobs
          match hreg : cfg.register with
          | none => simp [hreg] at hobs
          | some rid =>
              simp only [hreg] at hobs
              match hval : dictLookup modbus_data rid with
              | none => simp [hval] at hobs
              | some value =>
                  simp only [hval, Option.some.injEq] at hobs
                  simp only [hreg, hval]
                  rw [dictSet_of_not_mem_keys _ hnotin]
                  have hdisj3 : ∀ n ∈ dictKeys (acc ++
                      [(name, value * cfg.conversion.getD 1 + cfg.offset.getD 0)]),
                      n ∉ dictKeys rest := by
                    intro n hn
                    simp only [dictKeys, List.map_append, List.mem_append, List.map_cons,
                      List.map_nil, List.mem_singleton] at hn
                    rcases hn with hn | hn
                    · exact hdisj2 n hn
                    · subst hn
                      simpa [dictKeys] using hnd.1
                  rw [ih _ hnd.2 hdisj3, ← hobs, List.append_assoc]
                  rfl

/-- Under unique observation names, `map_modbus_to_observation` is the ordered
list of per-entry observations. -/
theorem map_modbus_eq_filterMap (modbus_data : PyDict Int ℚ)
    (register_map : PyDict String RegisterConfig)
    (hnd : (dictKeys register_map).Nodup) :
    map_modbus_to_observation modbus_data register_map =
      register_map.filterMap (observationEntry modbus_data) := by
  have := map_modbus_foldl_acc modbus_data register_map [] hnd (by simp [dictKeys])
  simpa [map_modbus_to_observation] using this

theorem dictLookup_map_modbus (modbus_data : PyDict Int ℚ)
    (register_map : PyDict String RegisterConfig)
    (hnd : (dictKeys register_map).Nodup) (n : String) :
    dictLookup (map_modbus_to_observation modbus_data register_map) n =
      match dictLookup register_map n with
      | some cfg =>
          match cfg.register with
          | some rid =>
              match dictLookup modbus_data rid with
              | some value =>
                  some (value * cfg.conversion.getD 1 + cfg.offset.getD 0)
              | none => none
          | none => none
      | none => none := by
  rw [map_modbus_eq_filterMap modbus_data register_map hnd]
  induction register_map with
  | nil => rfl
  | cons entry rest ih =>
      obtain ⟨name, cfg⟩ := entry
      simp only [dictKeys, List.map_cons, List.nodup_cons] at hnd
      simp only [List.filterMap_cons, dictLookup_cons]
      by_cases hname : name = n
      · subst hname
        match hobs : observationEntry modbus_data (name, cfg) with
        | some pair =>
            simp only [observationEntry] at hobs
            match hreg : cfg.register with
            | none => simp [hreg] at hobs
            | some rid =>
                simp only [hreg] at hobs
                match hval : dictLookup modbus_data rid with
                | none => simp [hval] at hobs
                | some value =>
                    simp only [hval, Option.some.injEq] at hobs
                    subst hobs
                    simp [dictLookup_cons, hreg, hval]
        | none =>
            simp only [observationEntry] at hobs
            have hrest : dictLookup (rest.filterMap (observationEntry modbus_data)) name
                = none := by
              apply dictLookup_eq_none_of_not_mem_keys
              intro hmem
              apply hnd.1
              simp only [dictKeys, List.mem_map] at hmem ⊢
              obtain ⟨⟨n2, q⟩, hq, hn2⟩ := hmem
              simp only [List.mem_filterMap] at hq
              obtain ⟨⟨n3, cfg3⟩, hmem3, hobs3⟩ := hq
              simp only [observationEntry] at hobs3
              match hreg3 : cfg3.register with
              | none => simp [hreg3] at hobs3
              | some rid3 =>
                  simp only [hreg3] at hobs3
                  match hval3 : dictLookup modbus_data rid3 with
                  | none => simp [hval3] at hobs3
                  | some v3 =>
                      simp only [hval3, Option.some.injEq] at hobs3
                      refine ⟨(n3, cfg3), hmem3, ?_⟩
                      have : n2 = n3 := by
                        have := congrArg Prod.fst hobs3
                        simpa using this.symm
                      simp at hn2
                      simp [← hn2, this]
            match hreg : cfg.register with
            | none => simp [hreg, hrest]
            | some rid =>
                simp only [hreg] at hobs
                match hval : dictLookup modbus_data rid with
                | some value => simp [hval] at hobs
                | none => simp [hreg, hval, hrest]
      · have ihr := ih hnd.2
        match hobs : observationEntry modbus_data (name, cfg) with
        | some pair =>
            have hfst : pair.1 = name := by
              simp only [observationEntry] at hobs
              match hreg : cfg.register with
              | none => simp [hreg] at hobs
              | some rid =>
                  simp only [hreg] at hobs
                  match hval : dictLookup modbus_data rid with
                  | none => simp [hval] at hobs
                  | some v =>
                      simp only [hval, Option.some.injEq] at hobs
                      simp [← hobs]
            obtain ⟨p1, p2⟩ := pair
            simp only at hfst
            subst hfst
            simp only [dictLookup_cons, hname, if_false, ihr]
        | none =>
            simp only [hname, if_false, ihr]

/-- Numeric value of a non-empty run of decimal digits; `none` when the run
is empty or contains a non-digit. -/
def digitsVal (cs : List Char) : Option Nat :=
  if cs.isEmpty then none
  else if cs.all (fun c => c.isDigit) then
    some (cs.foldl (fun acc c => acc * 10 + (c.toNat - 48)) 0)
  else none

/-- Python `int(...)` applied to a register-address key: an optional sign
followed by decimal digits.  Any other string raises `ValueError`, modelled
as `none`.  A key that is already an int appears here in its decimal form. -/
def pyIntOfString (s : String) : Option Int :=
  match s.data with
  | [] => none
  | c :: rest =>
      if c = Char.ofNat 45 then (digitsVal rest).map (fun n => -(n : Int))
      else if c = Char.ofNat 43 then (digitsVal rest).map (fun n => (n : Int))
      else (digitsVal (c :: rest)).map (fun n => (n : Int))

/-- `map_action_to_modbus(action, action_map)`: look up the action in the
map, defaulting to the empty dict, then copy each `(register_id, value)`
item into `writes` under `int(register_id)`. -/
def map_action_to_modbus (action : Int) (action_map : PyDict Int (PyDict String Int)) :
    Option (PyDict Int Int) :=
  let action_config := (dictLookup action_map action).getD []
  action_config.foldlM
    (fun writes entry =>
      (pyIntOfString entry.1).map (fun rid => dictSet writes rid entry.2))
    []

/-- The coerced integer addresses of an action entry, in declaration order;
`none` when some key is not a valid integer literal. -/
def parseAddrs : PyDict String Int → Option (List Int)
  | [] => some []
  | e :: rest =>
      match pyIntOfString e.1 with
      | some i => (parseAddrs rest).map (fun l => i :: l)
      | none => none

theorem map_action_foldl_acc (cfg : PyDict String Int) (ints : List Int)
    (acc : PyDict Int Int) (hm : parseAddrs cfg = some ints)
    (hnd : (dictKeys acc ++ ints).Nodup) :
    cfg.foldlM
      (fun writes entry =>
        (pyIntOfString entry.1).map (fun rid => dictSet writes rid entry.2))
      acc = some (acc ++ ints.zip (cfg.map Prod.snd)) := by
  induction cfg generalizing acc ints with
  | nil =>
      simp only [parseAddrs, Option.some.injEq] at hm
      subst hm
      simp [List.foldlM]
  | cons e rest ih =>
      obtain ⟨key, value⟩ := e
      cases hp : pyIntOfString key with
      | none => simp [parseAddrs, hp] at hm
      | some i =>
          simp only [parseAddrs, hp, Option.map_eq_some'] at hm
          obtain ⟨tl, htl, hints⟩ := hm
          subst hints
          simp only [List.foldlM_cons, hp, Option.map_some']
          have hset : dictSet acc i value = acc ++ [(i, value)] := by
            apply dictSet_of_not_mem_keys
            intro hmem
            exact (List.disjoint_of_nodup_append hnd) hmem (by simp)
          have hnd2 : (dictKeys (acc ++ [(i, value)]) ++ tl).Nodup := by
            simp only [dictKeys, List.map_append, List.map_cons, List.map_nil,
              List.append_assoc, List.singleton_append]
            simpa [dictKeys] using hnd
          have := ih tl (acc ++ [(i, value)]) htl hnd2
          simp only [hset, Option.bind_eq_bind, Option.some_bind, List.map_cons,
            List.zip_cons_cons]
          rw [this]
          simp [List.append_assoc]

/-- A decoded JSON value, as produced by `json.load`. -/
inductive JValue where
  | jnull : JValue
  | jbool (b : Bool) : JValue
  | jnum (q : ℚ) : JValue
  | jstr (s : String) : JValue
  | jarr (xs : List JValue) : JValue
  | jobj (fields : List (String × JValue)) : JValue

/-- The validation loop of `parse_modbus_config`: raise on the first
required key missing from the config, in the fixed order given. -/
def checkRequiredKeys (required_keys : List String)
    (config : PyDict String JValue) : Except String Unit :=
  match required_keys with
  | [] => .ok ()
  | key :: rest =>
      if dictContains config key then checkRequiredKeys rest config
      else .error ("Missing required key: " ++ key)

/-- `parse_modbus_config` applied to an already-decoded JSON config object:
validate that `slave_id` and `registers` are present (in that order), then
return the config unchanged. -/
def parse_modbus_config (config : PyDict String JValue) :
    Except String (PyDict String JValue) :=
  match checkRequiredKeys ["slave_id", "registers"] config with
  | .ok _ => .ok config
  | .error e => .error e

/-- A value stored in the `ModbusSimulator` register dict: registers hold
ints, coils hold booleans, in one shared address space. -/
inductive SimValue where
  | int (i : Int) : SimValue
  | bool (b : Bool) : SimValue
  deriving DecidableEq

/-- State of a `ModbusSimulator` instance. -/
structure ModbusSimulator where
  slave_id : Int
  registers : PyDict Int SimValue
  deriving DecidableEq

/-- `ModbusSimulator(slave_id)`: start with an empty register dict. -/
def ModbusSimulator.init (slave_id : Int) : ModbusSimulator :=
  { slave_id := slave_id, registers := [] }

/-- `read_register(address)`: `self.registers.get(address, 0)`. -/
def ModbusSimulator.read_register (self : ModbusSimulator) (address : Int) : SimValue :=
  (dictLookup self.registers address).getD (.int 0)

/-- `write_register(address, value)`: store and return True. -/
def ModbusSimulator.write_register (self : ModbusSimulator) (address : Int)
    (value : Int) : ModbusSimulator × Bool :=
  ({ self with registers := dictSet self.registers address (.int value) }, true)

/-- `read_coil(address)`: `self.registers.get(address, False)`. -/
def ModbusSimulator.read_coil (self : ModbusSimulator) (address : Int) : SimValue :=
  (dictLookup self.registers address).getD (.bool false)

/-- `write_coil(address, value)`: store and return True. -/
def ModbusSimulator.write_coil (self : ModbusSimulator) (address : Int)
    (value : Bool) : ModbusSimulator × Bool :=
  ({ self with registers := dictSet self.registers address (.bool value) }, true)

/-- `update_state(new_values)`: `self.registers.update(new_values)`, i.e.
set each item of `new_values` in order. -/
def ModbusSimulator.update_state (self : ModbusSimulator)
    (new_values : PyDict Int Int) : ModbusSimulator :=
  { self with
    registers := new_values.foldl (fun d e => dictSet d e.1 (.int e.2)) self.registers }

/-- An XML element as produced by `xml.etree.ElementTree`: tag, attribute
dict, and child elements in document order. -/
inductive XmlElem where
  | mk (tag : String) (attrib : PyDict String String) (children : List XmlElem)

def XmlElem.tag : XmlElem → String
  | .mk t _ _ => t

def XmlElem.attrib : XmlElem → PyDict String String
  | .mk _ a _ => a

def XmlElem.children : XmlElem → List XmlElem
  | .mk _ _ cs => cs

mutual

/-- `root.findall(".//Component")`: every descendant element (the root
itself excluded) whose tag is `Component`, in document order. -/
def findallComponent : XmlElem → List XmlElem
  | .mk _ _ cs => findallComponentList cs

def findallComponentList : List XmlElem → List XmlElem
  | [] => []
  | c :: cs =>
      (if c.tag = "Component" then [c] else []) ++ findallComponent c ++
        findallComponentList cs

end

mutual

/-- All proper descendants of an element, in document (preorder) order. -/
def descendantsElem : XmlElem → List XmlElem
  | .mk _ _ cs => descendantsList cs

def descendantsList : List XmlElem → List XmlElem
  | [] => []
  | c :: cs => c :: (descendantsElem c ++ descendantsList cs)

end

/-- A component record extracted from an XML scene:
`{name: element.get("name"), type: element.get("type"),
properties: element.attrib}`. -/
structure SceneComponentData where
  name : Option String
  type : Option String
  properties : PyDict String String
  deriving DecidableEq

/-- The component record built from one matched element. -/
def componentOfElem (element : XmlElem) : SceneComponentData :=
  { name := dictLookup element.attrib "name",
    type := dictLookup element.attrib "type",
    properties := element.attrib }

/-- A scene source, modelling the file at `scene_path` by what the two
parse attempts of `load_scene` would produce on it: `xml_parse` is the
result of `ET.parse` (`none` models `ET.ParseError`), `json_parse` the
result of `json.load` (`none` models `json.JSONDecodeError`). -/
structure SceneSource where
  path : String
  xml_parse : Option XmlElem
  json_parse : Option JValue

/-- The dictionary `load_scene` returns. -/
inductive SceneData where
  | xmlScene (root_tag : String) (attributes : PyDict String String)
      (components : List SceneComponentData) : SceneData
  | jsonScene (data : JValue) : SceneData

/-- `load_scene(scene_path)`: try the XML parse first; on `ET.ParseError`
try `json.load` and return its result as-is; if that also fails raise
`ValueError` naming the path.  On XML success return the format, root tag,
root attributes, and the extracted component list. -/
def load_scene (src : SceneSource) : Except String SceneData :=
  match src.xml_parse with
  | some root =>
      .ok (.xmlScene root.tag root.attrib
        ((findallComponent root).map componentOfElem))
  | none =>
      match src.json_parse with
      | some j => .ok (.jsonScene j)
      | none => .error ("Unable to parse scene file: " ++ src.path)

theorem findallComponent_eq_filter :
    (∀ e : XmlElem, findallComponent e =
      (descendantsElem e).filter (fun d => d.tag = "Component")) ∧
    (∀ l : List XmlElem, findallComponentList l =
      (descendantsList l).filter (fun d => d.tag = "Component")) := by
  constructor
  · intro e
    induction e using XmlElem.rec
      (motive_2 := fun l => findallComponentList l =
        (descendantsList l).filter (fun d => d.tag = "Component")) with
    | mk t a cs ih => exact ih
    | nil => rfl
    | cons c cs ihc ihcs =>
        simp only [findallComponentList, descendantsList, List.filter_cons,
          List.filter_append, ihc, ihcs, findallComponent, descendantsElem]
        by_cases hc : c.tag = "Component"
        · simp [hc]
        · simp [hc]
  · intro l
    induction l with
    | nil => rfl
    | cons c cs ihcs =>
        have hc2 : findallComponent c =
            (descendantsElem c).filter (fun d => d.tag = "Component") := by
          induction c using XmlElem.rec
            (motive_2 := fun l2 => findallComponentList l2 =
              (descendantsList l2).filter (fun d => d.tag = "Component")) with
          | mk t a cs2 ih => exact ih
          | nil => rfl
          | cons c2 cs2 ihc2 ihcs2 =>
              simp only [findallComponentList, descendantsList, List.filter_cons,
                List.filter_append, ihc2, ihcs2, findallComponent, descendantsElem]
              by_cases hcc : c2.tag = "Component"
              · simp [hcc]
              · simp [hcc]
        simp only [findallComponentList, descendantsList, List.filter_cons,
          List.filter_append, hc2, ihcs, findallComponent, descendantsElem]
        by_cases hc : c.tag = "Component"
        · simp [hc]
        · simp [hc]

/-! ## src/labview/labview_integration.py -/

mutual

/-- Python repr of a decoded JSON value, used by the tabular export when a
container value survives flattening. -/
def reprOfJValue : JValue → String
  | .jnull => "None"
  | .jbool b => if b then "True" else "False"
  | .jnum q => toString q
  | .jstr s => "\x27" ++ s ++ "\x27"
  | .jarr xs => "[" ++ reprOfJList xs ++ "]"
  | .jobj fs => "\x7b" ++ reprOfJFields fs ++ "\x7d"

def reprOfJList : List JValue → String
  | [] => ""
  | [x] => reprOfJValue x
  | x :: xs => reprOfJValue x ++ ", " ++ reprOfJList xs

def reprOfJFields : List (String × JValue) → String
  | [] => ""
  | [(k, v)] => "\x27" ++ k ++ "\x27: " ++ reprOfJValue v
  | (k, v) :: fs => "\x27" ++ k ++ "\x27: " ++ reprOfJValue v ++ ", " ++ reprOfJFields fs

end

/-- Python str of a decoded JSON value (as written into a tabular cell). -/
def strOfJValue : JValue → String
  | .jstr s => s
  | v => reprOfJValue v

mutual

/-- The item list built by `_flatten_dict(d, parent_key)`: nested dict
values are flattened recursively under `parent_key + "_" + key`, other
values are kept. -/
def flattenItems : List (String × JValue) → String → List (String × JValue)
  | [], _ => []
  | (k, v) :: rest, parent_key =>
      let new_key := if parent_key = "" then k else parent_key ++ "_" ++ k
      flattenValue v new_key ++ flattenItems rest parent_key

def flattenValue : JValue → String → List (String × JValue)
  | .jobj fields, new_key => flattenItems fields new_key
  | w, new_key => [(new_key, w)]

end

/-- `dict(items)`: build a dict from a pair list, later pairs overriding
earlier ones with the same key. -/
def pyDictOfItems (items : List (String × JValue)) : PyDict String JValue :=
  items.foldl (fun acc e => dictSet acc e.1 e.2) []

/-- `_flatten_dict(d)` as called by the tabular export. -/
def flatten_dict (d : PyDict String JValue) : PyDict String JValue :=
  pyDictOfItems (flattenItems d "")

/-- Structured content of an exchange file.  The textual encodings of the
`json` and `csv` libraries are abstracted: a JSON file is modelled by the
value it decodes to, a tabular file by its header row and data rows. -/
inductive FileContent where
  | jsonContent (data : JValue) : FileContent
  | csvContent (header : List String) (rows : List (List String)) : FileContent

/-- `export_for_labview(data, output_path, format)`: the content written at
`output_path`.  The `json` branch dumps the full structure; the `csv`
branch writes the flattened header row plus exactly one data row; any other
format writes nothing (modelled as `none`). -/
def export_for_labview (data : PyDict String JValue) (format : String) :
    Option FileContent :=
  if format = "json" then some (.jsonContent (.jobj data))
  else if format = "csv" then
    let flat_data := flatten_dict data
    some (.csvContent (dictKeys flat_data) [flat_data.map (fun e => strOfJValue e.2)])
  else none

/-- Python `s.endswith(suffix)`. -/
def pyEndsWith (s suffix : String) : Bool :=
  suffix.data.isSuffixOf s.data

/-- An exception escaping `import_from_labview`. -/
inductive PyError where
  | valueError (message : String) : PyError
  | stopIteration : PyError
  | fileNotFoundError (path : String) : PyError
  | jsonDecodeError : PyError
  deriving DecidableEq

/-- The dictionary returned by `import_from_labview`: either a full decoded
JSON structure or the first tabular data row as a flat string-valued dict. -/
inductive ImportResult where
  | jsonData (data : JValue) : ImportResult
  | rowData (row : PyDict String String) : ImportResult

/-- `import_from_labview(input_path)` over a filesystem mapping paths to
file contents.  Dispatch is on the path suffix: `.json` decodes the full
structure, `.csv` builds a dict from the header and the first data row
(`next(reader)` raises `StopIteration` when there is none), and any other
suffix raises `ValueError` naming the path.  A stored content that does not
match the extension it was saved under is modelled as a decode error; such
a file is never produced by `export_for_labview`. -/
def import_from_labview (fs : PyDict String FileContent) (input_path : String) :
    Except PyError ImportResult :=
  if pyEndsWith input_path ".json" then
    match dictLookup fs input_path with
    | some (.jsonContent j) => .ok (.jsonData j)
    | some (.csvContent _ _) => .error .jsonDecodeError
    | none => .error (.fileNotFoundError input_path)
  else if pyEndsWith input_path ".csv" then
    match dictLookup fs input_path with
    | some (.csvContent header rows) =>
        match rows with
        | row :: _ => .ok (.rowData (header.zip row))
        | [] => .error .stopIteration
    | some (.jsonContent _) => .error .jsonDecodeError
    | none => .error (.fileNotFoundError input_path)
  else .error (.valueError ("Unsupported file format: " ++ input_path))

/-- `LabVIEWDataHandler.prepare_ai_decision(action, confidence,
power_savings, metadata)`.  The timestamp parameter models the
`datetime.now().isoformat()` call; `metadata or ` an empty dict keeps a
supplied dict and replaces `None` (and the empty dict) by the empty
dict. -/
def prepare_ai_decision (timestamp : String) (action : Int) (confidence : ℚ)
    (power_savings : ℚ) (metadata : Option (PyDict String JValue)) :
    PyDict String JValue :=
  [("timestamp", .jstr timestamp),
   ("ai_decision", .jobj
      [("action", .jnum action),
       ("confidence", .jnum confidence),
       ("power_savings_kw", .jnum power_savings)]),
   ("metadata", .jobj (match metadata with | some m => m | none => []))]

/-- Field lookup on a decoded JSON object. -/
def jobjLookup (j : JValue) (key : String) : Option JValue :=
  match j with
  | .jobj fields => dictLookup fields key
  | _ => none

/-- Claim C1: for every register snapshot and register map (with unique
observation names, as in a Python dict), the result of
`map_modbus_to_observation` has as key set exactly the observation names
whose configured register address is a key of the snapshot: such names are
present, names whose address is absent are omitted (not zero-filled), and
no other keys appear. -/
theorem observe_key_set (modbus_data : PyDict Int ℚ)
    (register_map : PyDict String RegisterConfig)
    (hnd : (dictKeys register_map).Nodup) (n : String) :
    n ∈ dictKeys (map_modbus_to_observation modbus_data register_map) ↔
      ∃ cfg rid, dictLookup register_map n = some cfg ∧ cfg.register = some rid ∧
        rid ∈ dictKeys modbus_data := by
  rw [← dictLookup_isSome_iff_mem_keys]
  rw [dictLookup_map_modbus modbus_data register_map hnd n]
  constructor
  · intro h
    match hm : dictLookup register_map n with
    | none => simp [hm] at h
    | some cfg =>
        simp only [hm] at h
        match hr : cfg.register with
        | none => simp [hr] at h
        | some rid =>
            simp only [hr] at h
            match hv : dictLookup modbus_data rid with
            | none => simp [hv] at h
            | some v => exact ⟨cfg, rid, rfl, hr, mem_keys_of_dictLookup hv⟩
  · rintro ⟨cfg, rid, hm, hr, hmem⟩
    obtain ⟨v, hv⟩ :=
      Option.isSome_iff_exists.mp ((dictLookup_isSome_iff_mem_keys _ _).mpr hmem)
    simp only [hm, hr, hv, Option.isSome_some]

theorem observe_key_set_witness :
    ("temp" ∈ dictKeys (map_modbus_to_observation [((10 : Int), (650 : ℚ))]
      [("temp", ⟨some 10, some (1/10), some (-40)⟩),
       ("pressure", ⟨some 11, none, none⟩)])) ∧
    ("pressure" ∉ dictKeys (map_modbus_to_observation [((10 : Int), (650 : ℚ))]
      [("temp", ⟨some 10, some (1/10), some (-40)⟩),
       ("pressure", ⟨some 11, none, none⟩)])) := by
  constructor
  · exact (observe_key_set [((10 : Int), (650 : ℚ))]
      [("temp", ⟨some 10, some (1/10), some (-40)⟩),
       ("pressure", ⟨some 11, none, none⟩)] (by decide) "temp").mpr
      ⟨⟨some 10, some (1/10), some (-40)⟩, 10, rfl, rfl, by decide⟩
  · intro hmem
    obtain ⟨cfg, rid, hm, hr, hmemS⟩ := (observe_key_set [((10 : Int), (650 : ℚ))]
      [("temp", ⟨some 10, some (1/10), some (-40)⟩),
       ("pressure", ⟨some 11, none, none⟩)] (by decide) "pressure").mp hmem
    have hcfg : (⟨some 11, none, none⟩ : RegisterConfig) = cfg := by
      simpa [dictLookup] using hm
    subst hcfg
    have h11 : (11 : Int) = rid := by simpa using hr
    subst h11
    simp [dictKeys] at hmemS

/-- Claim C2: for every snapshot, register map with unique observation
names, and observation name present in the result of
`map_modbus_to_observation`, the returned value is exactly
`snapshot[cfg.register] * conversion + offset`, with `conversion`
defaulting to 1 and `offset` to 0 when the descriptor omits them.  The
spec instance (register 10, conversion 0.1, offset -40, snapshot
`10 ↦ 650`, result 25.0) is the witness. -/
theorem observe_linear_law (modbus_data : PyDict Int ℚ)
    (register_map : PyDict String RegisterConfig)
    (hnd : (dictKeys register_map).Nodup) (n : String) (y : ℚ)
    (hy : dictLookup (map_modbus_to_observation modbus_data register_map) n = some y) :
    ∃ cfg rid value, dictLookup register_map n = some cfg ∧
      cfg.register = some rid ∧ dictLookup modbus_data rid = some value ∧
      y = value * cfg.conversion.getD 1 + cfg.offset.getD 0 := by
  rw [dictLookup_map_modbus modbus_data register_map hnd n] at hy
  match hm : dictLookup register_map n with
  | none => simp [hm] at hy
  | some cfg =>
      simp only [hm] at hy
      match hr : cfg.register with
      | none => simp [hr] at hy
      | some rid =>
          simp only [hr] at hy
          match hv : dictLookup modbus_data rid with
          | none => simp [hv] at hy
          | some value =>
              simp only [hv, Option.some.injEq] at hy
              exact ⟨cfg, rid, value, rfl, hr, hv, hy.symm⟩

theorem observe_linear_law_witness :
    (dictLookup (map_modbus_to_observation [((10 : Int), (650 : ℚ))]
        [("temp", ⟨some 10, some (1/10), some (-40)⟩)]) "temp" = some 25) ∧
    ∃ cfg rid value,
      dictLookup [("temp", (⟨some 10, some (1/10), some (-40)⟩ : RegisterConfig))]
        "temp" = some cfg ∧
      cfg.register = some rid ∧ dictLookup [((10 : Int), (650 : ℚ))] rid = some value ∧
      (25 : ℚ) = value * cfg.conversion.getD 1 + cfg.offset.getD 0 := by
  have hy : dictLookup (map_modbus_to_observation [((10 : Int), (650 : ℚ))]
      [("temp", ⟨some 10, some (1/10), some (-40)⟩)]) "temp" = some 25 := by
    norm_num [map_modbus_to_observation, dictLookup, dictSet]
  exact ⟨hy, observe_linear_law [((10 : Int), (650 : ℚ))]
    [("temp", ⟨some 10, some (1/10), some (-40)⟩)] (by decide) "temp" 25 hy⟩

/-- Claim C3: for every action map and index, `map_action_to_modbus`
returns the empty write-set when the index is absent (a no-op, not an
error), and otherwise returns exactly the configured address/value pairs
of the entry, each address coerced to an integer key, and nothing else. -/
theorem act_write_set (action_map : PyDict Int (PyDict String Int)) (action : Int) :
    (dictLookup action_map action = none →
      map_action_to_modbus action action_map = some []) ∧
    (∀ action_config ints, dictLookup action_map action = some action_config →
      parseAddrs action_config = some ints → ints.Nodup →
      map_action_to_modbus action action_map =
        some (ints.zip (action_config.map Prod.snd))) := by
  constructor
  · intro h
    simp [map_action_to_modbus, h, List.foldlM]
  · intro action_config ints hlook hparse hnd
    have := map_action_foldl_acc action_config ints [] hparse (by simpa [dictKeys] using hnd)
    simp only [map_action_to_modbus, hlook, Option.getD_some]
    simpa using this

theorem act_write_set_witness :
    (map_action_to_modbus 3 [((3 : Int), [("20", (1 : Int))])] = some [(20, 1)]) ∧
    (map_action_to_modbus 7 [((3 : Int), [("20", (1 : Int))])] = some []) := by
  constructor
  · have := (act_write_set [((3 : Int), [("20", (1 : Int))])] 3).2
      [("20", (1 : Int))] [20] rfl rfl (by decide)
    simpa using this
  · exact (act_write_set [((3 : Int), [("20", (1 : Int))])] 7).1 rfl

/-- Claim C4: `parse_modbus_config` fails with a validation error naming
the first missing required key, checking `slave_id` before `registers`:
with `slave_id` absent it names `slave_id` (whether or not `registers` is
also absent), with `slave_id` present and `registers` absent it names
`registers`, and with both present it returns the config unchanged. -/
theorem parse_config_validation (config : PyDict String JValue) :
    (dictContains config "slave_id" = false →
      parse_modbus_config config = .error "Missing required key: slave_id") ∧
    (dictContains config "slave_id" = true → dictContains config "registers" = false →
      parse_modbus_config config = .error "Missing required key: registers") ∧
    (dictContains config "slave_id" = true → dictContains config "registers" = true →
      parse_modbus_config config = .ok config) := by
  refine ⟨?_, ?_, ?_⟩
  · intro h1
    simp [parse_modbus_config, checkRequiredKeys, h1]
  · intro h1 h2
    simp [parse_modbus_config, checkRequiredKeys, h1, h2]
  · intro h1 h2
    simp [parse_modbus_config, checkRequiredKeys, h1, h2]

theorem parse_config_validation_witness :
    (parse_modbus_config [("registers", JValue.jarr [JValue.jnum 0])] =
      .error "Missing required key: slave_id") ∧
    (parse_modbus_config [] =
      .error "Missing required key: slave_id") ∧
    (parse_modbus_config [("slave_id", JValue.jnum 1)] =
      .error "Missing required key: registers") ∧
    (parse_modbus_config [("slave_id", JValue.jnum 1),
        ("registers", JValue.jarr [JValue.jnum 0])] =
      .ok [("slave_id", JValue.jnum 1), ("registers", JValue.jarr [JValue.jnum 0])]) := by
  refine ⟨?_, ?_, ?_, ?_⟩
  · exact (parse_config_validation [("registers", JValue.jarr [JValue.jnum 0])]).1 rfl
  · exact (parse_config_validation []).1 rfl
  · exact (parse_config_validation [("slave_id", JValue.jnum 1)]).2.1 rfl rfl
  · exact (parse_config_validation [("slave_id", JValue.jnum 1),
      ("registers", JValue.jarr [JValue.jnum 0])]).2.2 rfl rfl

/-- Claim C5 counterexample: a config whose `registers` key maps to the
empty collection is NOT rejected by `parse_modbus_config`; it is accepted
and returned unchanged, so accepted configs need not have a non-empty
`registers` collection. -/
theorem parse_config_empty_registers_accepted :
    parse_modbus_config [("slave_id", JValue.jnum 1), ("registers", JValue.jarr [])] =
      .ok [("slave_id", JValue.jnum 1), ("registers", JValue.jarr [])] ∧
    dictLookup [("slave_id", JValue.jnum 1), ("registers", JValue.jarr [])]
      "registers" = some (JValue.jarr []) :=
  ⟨rfl, rfl⟩

/-- Claim C5 (amended): `parse_modbus_config` validates only the presence
of `slave_id` and `registers`; any config containing both keys — in
particular one whose `registers` maps to an empty collection — is
returned unchanged, with no emptiness check. -/
theorem parse_config_presence_only (config : PyDict String JValue)
    (h1 : dictContains config "slave_id" = true)
    (h2 : dictContains config "registers" = true) :
    parse_modbus_config config = .ok config := by
  simp [parse_modbus_config, checkRequiredKeys, h1, h2]

theorem parse_config_presence_only_witness :
    parse_modbus_config [("slave_id", JValue.jnum 1), ("registers", JValue.jarr [])] =
      .ok [("slave_id", JValue.jnum 1), ("registers", JValue.jarr [])] :=
  parse_config_presence_only
    [("slave_id", JValue.jnum 1), ("registers", JValue.jarr [])] rfl rfl

/-- Claim C6: for every simulator state and addresses `a`, `b`, `c` with
`c` distinct from `a` and `b` (and `a ≠ b`, so that the bulk-update dict
literal has two entries): a written register reads back, a written coil
reads back, a never-written address reads as 0 (register) or false (coil)
without failing, and `update_state` makes the two updated addresses read
the new values while leaving the value at `c` unchanged. -/
theorem simulator_contract (s : ModbusSimulator) (a b c v w : Int) (vb : Bool)
    (hab : a ≠ b) (hca : c ≠ a) (hcb : c ≠ b) :
    ((s.write_register a v).1.read_register a = .int v) ∧
    ((s.write_coil a vb).1.read_coil a = .bool vb) ∧
    (dictLookup s.registers a = none → s.read_register a = .int 0) ∧
    (dictLookup s.registers a = none → s.read_coil a = .bool false) ∧
    ((s.update_state [(a, v), (b, w)]).read_register a = .int v ∧
     (s.update_state [(a, v), (b, w)]).read_register b = .int w ∧
     (s.update_state [(a, v), (b, w)]).read_register c = s.read_register c) := by
  refine ⟨?_, ?_, ?_, ?_, ?_, ?_, ?_⟩
  · simp [ModbusSimulator.write_register, ModbusSimulator.read_register,
      dictLookup_dictSet_self]
  · simp [ModbusSimulator.write_coil, ModbusSimulator.read_coil,
      dictLookup_dictSet_self]
  · intro h
    simp [ModbusSimulator.read_register, h]
  · intro h
    simp [ModbusSimulator.read_coil, h]
  · simp [ModbusSimulator.update_state, ModbusSimulator.read_register,
      dictLookup_dictSet_ne _ _ (Ne.symm hab), dictLookup_dictSet_self]
  · simp [ModbusSimulator.update_state, ModbusSimulator.read_register,
      dictLookup_dictSet_self]
  · simp [ModbusSimulator.update_state, ModbusSimulator.read_register,
      dictLookup_dictSet_ne _ _ (Ne.symm hca).symm, dictLookup_dictSet_ne]
    rw [dictLookup_dictSet_ne _ _ (fun h => hcb h.symm),
      dictLookup_dictSet_ne _ _ (fun h => hca h.symm)]

theorem simulator_contract_witness :
    (((ModbusSimulator.init 1).write_register 0 5).1.read_register 0 =
      SimValue.int 5) ∧
    ((ModbusSimulator.init 1).read_register 0 = SimValue.int 0) ∧
    ((ModbusSimulator.init 1).read_coil 0 = SimValue.bool false) ∧
    (((ModbusSimulator.init 1).update_state [(0, 5), (1, 8)]).read_register 1 =
      SimValue.int 8) := by
  obtain ⟨h1, h2, h3, h4, h5, h6, h7⟩ :=
    simulator_contract (ModbusSimulator.init 1) 0 1 2 5 8 true
      (by decide) (by decide) (by decide)
  exact ⟨h1, h3 rfl, h4 rfl, h6⟩

/-- Claim C7: `load_scene` attempts the XML parse first; on XML success it
returns the detected format with the root tag, root attributes, and the
ordered list of descendant `Component` elements carrying their name, type
and full attribute set (regardless of whether the JSON parse would also
succeed); on XML failure it returns the JSON parse result as-is without
component extraction; and when both parses fail it fails with an error
naming the source path. -/
theorem load_scene_dispatch (src : SceneSource) (root : XmlElem) (j : JValue) :
    (src.xml_parse = some root →
      load_scene src = .ok (.xmlScene root.tag root.attrib
        (((descendantsElem root).filter (fun d => d.tag = "Component")).map
          componentOfElem))) ∧
    (src.xml_parse = none → src.json_parse = some j →
      load_scene src = .ok (.jsonScene j)) ∧
    (src.xml_parse = none → src.json_parse = none →
      load_scene src = .error ("Unable to parse scene file: " ++ src.path)) := by
  refine ⟨?_, ?_, ?_⟩
  · intro hx
    simp only [load_scene, hx]
    rw [findallComponent_eq_filter.1 root]
  · intro hx hj
    simp [load_scene, hx, hj]
  · intro hx hj
    simp [load_scene, hx, hj]

theorem load_scene_dispatch_witness :
    (load_scene
      { path := "plant.scene",
        xml_parse := some (.mk "scene" [("version", "2")]
          [.mk "Component" [("name", "conv"), ("type", "belt")] [],
           .mk "Group" []
             [.mk "Component" [("name", "p1"), ("type", "pusher")] []]]),
        json_parse := none } =
      .ok (.xmlScene "scene" [("version", "2")]
        [{ name := some "conv", type := some "belt",
           properties := [("name", "conv"), ("type", "belt")] },
         { name := some "p1", type := some "pusher",
           properties := [("name", "p1"), ("type", "pusher")] }])) ∧
    (load_scene
      { path := "plant.scene", xml_parse := none,
        json_parse := some (.jobj [("components", .jarr [])]) } =
      .ok (.jsonScene (.jobj [("components", .jarr [])]))) ∧
    (load_scene
      { path := "plant.scene", xml_parse := none, json_parse := none } =
      .error "Unable to parse scene file: plant.scene") := by
  refine ⟨?_, ?_, ?_⟩
  · have h := (load_scene_dispatch
      { path := "plant.scene",
        xml_parse := some (.mk "scene" [("version", "2")]
          [.mk "Component" [("name", "conv"), ("type", "belt")] [],
           .mk "Group" []
             [.mk "Component" [("name", "p1"), ("type", "pusher")] []]]),
        json_parse := none }
      (.mk "scene" [("version", "2")]
        [.mk "Component" [("name", "conv"), ("type", "belt")] [],
         .mk "Group" []
           [.mk "Component" [("name", "p1"), ("type", "pusher")] []]])
      JValue.jnull).1 rfl
    rw [h]
    rfl
  · exact (load_scene_dispatch
      { path := "plant.scene", xml_parse := none,
        json_parse := some (.jobj [("components", .jarr [])]) }
      (.mk "x" [] []) (.jobj [("components", .jarr [])])).2.1 rfl rfl
  · exact (load_scene_dispatch
      { path := "plant.scene", xml_parse := none, json_parse := none }
      (.mk "x" [] []) JValue.jnull).2.2 rfl rfl

/-- Claim C8: exporting a payload built by `prepare_ai_decision` with
`export_for_labview` in JSON format and importing it back through
`import_from_labview` at the same `.json` path reproduces the timestamp,
action, confidence, power-savings and metadata values. -/
theorem exchange_json_roundtrip (timestamp : String) (action : Int)
    (confidence power_savings : ℚ) (metadata : Option (PyDict String JValue))
    (fs : PyDict String FileContent) (path : String)
    (hpath : pyEndsWith path ".json" = true) :
    ∃ file,
      export_for_labview
        (prepare_ai_decision timestamp action confidence power_savings metadata)
        "json" = some file ∧
      ∃ j, import_from_labview (dictSet fs path file) path = .ok (.jsonData j) ∧
        jobjLookup j "timestamp" = some (.jstr timestamp) ∧
        jobjLookup j "ai_decision" = some (.jobj
          [("action", .jnum action), ("confidence", .jnum confidence),
           ("power_savings_kw", .jnum power_savings)]) ∧
        jobjLookup j "metadata" = some (.jobj
          (match metadata with | some m => m | none => [])) := by
  refine ⟨.jsonContent (.jobj
    (prepare_ai_decision timestamp action confidence power_savings metadata)),
    rfl, .jobj (prepare_ai_decision timestamp action confidence power_savings metadata),
    ?_, rfl, rfl, rfl⟩
  simp only [import_from_labview, hpath, if_true, dictLookup_dictSet_self]

theorem exchange_json_roundtrip_witness :
    (pyEndsWith "decision.json" ".json" = true) ∧
    ∃ file,
      export_for_labview
        (prepare_ai_decision "2025-01-01T00:00:00" 2 (9/10) 5
          (some [("episode", JValue.jnum 12)]))
        "json" = some file ∧
      ∃ j, import_from_labview (dictSet [] "decision.json" file) "decision.json" =
          .ok (.jsonData j) ∧
        jobjLookup j "timestamp" = some (.jstr "2025-01-01T00:00:00") ∧
        jobjLookup j "ai_decision" = some (.jobj
          [("action", .jnum 2), ("confidence", .jnum (9/10)),
           ("power_savings_kw", .jnum 5)]) ∧
        jobjLookup j "metadata" = some (.jobj [("episode", JValue.jnum 12)]) :=
  ⟨by decide,
   exchange_json_roundtrip "2025-01-01T00:00:00" 2 (9/10) 5
     (some [("episode", JValue.jnum 12)]) [] "decision.json" (by decide)⟩

/-- Claim C9: `import_from_labview` dispatches solely on the source path
suffix: a `.json` source is decoded as a full structure, a `.csv` source
reads exactly the first data row into a flat string-valued dict, and a
path with neither suffix fails with a `ValueError` whose message names the
path — in particular the message ends with the same extension the path
ends with. -/
theorem import_dispatch (fs : PyDict String FileContent) (path : String) :
    (pyEndsWith path ".json" = false → pyEndsWith path ".csv" = false →
      import_from_labview fs path =
        .error (.valueError ("Unsupported file format: " ++ path)) ∧
      ∀ ext, pyEndsWith path ext = true →
        pyEndsWith ("Unsupported file format: " ++ path) ext = true) ∧
    (∀ j, pyEndsWith path ".json" = true →
      dictLookup fs path = some (.jsonContent j) →
      import_from_labview fs path = .ok (.jsonData j)) ∧
    (∀ header row rest, pyEndsWith path ".json" = false →
      pyEndsWith path ".csv" = true →
      dictLookup fs path = some (.csvContent header (row :: rest)) →
      import_from_labview fs path = .ok (.rowData (header.zip row))) := by
  refine ⟨?_, ?_, ?_⟩
  · intro hjson hcsv
    refine ⟨by simp [import_from_labview, hjson, hcsv], ?_⟩
    intro ext hext
    simp only [pyEndsWith, String.data_append] at hext ⊢
    rw [List.isSuffixOf_iff_suffix] at hext ⊢
    exact hext.trans (List.suffix_append _ _)
  · intro j hjson hlook
    simp [import_from_labview, hjson, hlook]
  · intro header row rest hjson hcsv hlook
    simp [import_from_labview, hjson, hcsv, hlook]

theorem import_dispatch_witness :
    (import_from_labview [] "export.txt" =
      .error (.valueError "Unsupported file format: export.txt")) ∧
    (pyEndsWith "Unsupported file format: export.txt" ".txt" = true) ∧
    (import_from_labview [("d.json", .jsonContent (.jnum 4))] "d.json" =
      .ok (.jsonData (.jnum 4))) ∧
    (import_from_labview
        [("d.csv", .csvContent ["a", "b"] [["1", "2"], ["3", "4"]])] "d.csv" =
      .ok (.rowData [("a", "1"), ("b", "2")])) := by
  obtain ⟨h1, h2, h3⟩ := import_dispatch [] "export.txt"
  obtain ⟨hu, hname⟩ := h1 (by decide) (by decide)
  refine ⟨hu, hname ".txt" (by decide), ?_, ?_⟩
  · exact (import_dispatch [("d.json", .jsonContent (.jnum 4))] "d.json").2.1
      (.jnum 4) (by decide) rfl
  · have := (import_dispatch
      [("d.csv", .csvContent ["a", "b"] [["1", "2"], ["3", "4"]])] "d.csv").2.2
      ["a", "b"] ["1", "2"] [["3", "4"]] (by decide) (by decide) rfl
    simpa using this

/-- Claim C10: on a `.csv` source that contains a header row but no data
row, `import_from_labview` raises `StopIteration` from reading the first
data row, rather than returning an empty dict or an error from the
documented taxonomy. -/
theorem import_empty_csv_stop_iteration :
    import_from_labview [("data.csv", .csvContent ["a", "b"] [])] "data.csv" =
      .error .stopIteration := rfl
